import Mathlib

/-!
Shallow embedding of the incremental change-detection cache of
`src/utility.ts` (the fs-hash core): the content fingerprint `getHash`,
bucket path resolution `getHashPath`, the bucket store operations
`getCacheFile`, `setCacheFile`, `getCacheEntry`, `setCacheEntry`, the
change detector `getCached` and the cache writer `updateCache`.

JavaScript strings carrying file content are modelled as lists of UTF-16
code units (`List Nat`), the 32-bit signed integer coercion performed by
the bitwise operators as `toInt32`, JavaScript objects used as
string-keyed maps as association lists, and the mutable process state
(the persisted bucket documents and the in-memory `localCache` overlay)
as an explicit `Sys` record threaded through every operation.  Promise
rejection is modelled with `Except`.  The observed modification time and
content of a tracked file come from the external `stat` and `readFile`
collaborators, so they are passed to `getCached` and `updateCache` as
arguments.
-/

namespace FsHash

/-- JavaScript `ToInt32`: wrap an integer into the signed 32-bit range,
as performed by the bitwise operators in `getHash` (`hash |= 0` and the
result of `<<`). -/
def toInt32 (x : Int) : Int := (x + 2 ^ 31) % 2 ^ 32 - 2 ^ 31

/-- One iteration of the loop of `getHash` (src/utility.ts lines
889-894): `hash = ((hash << 5) - hash) + chr; hash |= 0`.  The
accumulator is a 32-bit value at the start of every iteration, so the
JavaScript shift `hash << 5` is `toInt32 (hash * 32)`. -/
def hashStep (hash : Int) (chr : Nat) : Int :=
  toInt32 (toInt32 (hash * 32) - hash + (chr : Int))

/-- Embedding of `getHash` (src/utility.ts lines 884-896); the input
string is given as its list of UTF-16 code units. -/
def getHash (text : List Nat) : Int :=
  if text = [] then 0 else text.foldl hashStep 0

/-- Embedding of `gracePeriodMilliseconds` (src/utility.ts line 899). -/
def gracePeriodMilliseconds : Int := 1000 * 60 * 2

/-- Embedding of `isNewer` (src/utility.ts lines 900-902). -/
def isNewer (date comparedToDate : Int) : Bool :=
  decide (date - gracePeriodMilliseconds > comparedToDate)

/-- Split a character list at `/` characters (structural helper for
`pathSegs`). -/
def splitSlashAux : List Char → List Char → List (List Char)
  | [], acc => [acc.reverse]
  | c :: cs, acc =>
    if c = '/' then acc.reverse :: splitSlashAux cs []
    else splitSlashAux cs (c :: acc)

/-- Split a POSIX path into its non-empty segments; shared basis of the
models of the Node `path` collaborator functions used by
`getHashPath`. -/
def pathSegs (s : String) : List String :=
  ((splitSlashAux s.data []).filter (fun seg => !seg.isEmpty)).map String.mk

/-- Resolve `.` and `..` segments; models Node path normalization for
paths anchored at the root, where a leading `..` stays at the root. -/
def normSegs (segs : List String) : List String :=
  segs.foldl (fun acc seg =>
    if seg = "." then acc
    else if seg = ".." then acc.dropLast
    else acc ++ [seg]) []

/-- Join segments with `/` separators (structural replacement for
intercalation). -/
def joinSegs : List String → String
  | [] => ""
  | s :: rest => rest.foldl (fun acc seg => acc ++ "/" ++ seg) s

/-- Model of the Node `path.join` collaborator, for an absolute first
part (all joins in `getHashPath` start from the absolute project
root). -/
def pathJoin (parts : List String) : String :=
  "/" ++ joinSegs (normSegs (parts.map pathSegs).flatten)

/-- Drop the longest common prefix of two segment lists; helper for the
model of Node `path.relative`. -/
def dropCommon : List String → List String → List String × List String
  | a :: as, b :: bs => if a = b then dropCommon as bs else (a :: as, b :: bs)
  | as, bs => (as, bs)

/-- Model of the Node `path.relative` collaborator, for absolute
arguments: strip the common prefix, then climb with `..` segments. -/
def pathRelative (fromPath toPath : String) : String :=
  let f := normSegs (pathSegs fromPath)
  let t := normSegs (pathSegs toPath)
  let ft := dropCommon f t
  joinSegs (List.replicate ft.1.length ".." ++ ft.2)

/-- Whether a path starts with `/`. -/
def isAbsolutePath (p : String) : Bool :=
  match p.data with
  | c :: _ => c == '/'
  | [] => false

/-- Model of the Node `path.dirname` collaborator, for inputs without
trailing slashes (the only inputs `getHashPath` produces). -/
def pathDirname (p : String) : String :=
  let segs := pathSegs p
  if isAbsolutePath p then
    if segs.length ≤ 1 then "/" else "/" ++ joinSegs segs.dropLast
  else
    if segs.length ≤ 1 then "." else joinSegs segs.dropLast

/-- Modelled from the spec: `rootPath` is imported from
`./lint-fmt-common`, a module not among the sources; the spec calls it
the "fixed project root".  A fixed absolute directory stands in for
it. -/
def rootPath : String := "/project"

/-- Modelled from the spec: `hashCacheDir` is imported from
`./lint-fmt-common`, a module not among the sources; the spec calls it
the "dedicated cache-root directory" (the README shows `.fs-hash/`). -/
def hashCacheDir : String := ".fs-hash"

/-- Embedding of `getHashPath` (src/utility.ts lines 834-837). -/
def getHashPath (filePath : String) : String :=
  let relative := pathRelative (pathJoin [rootPath, "website"]) filePath
  pathJoin [rootPath, hashCacheDir, pathDirname relative ++ ".json"]

/-- Embedding of `CacheEntry` (src/utility.ts lines 723-726). -/
structure CacheEntry where
  dateUpdated : Int
  hash : Int
deriving DecidableEq

/-- Embedding of `CacheFile` (src/utility.ts lines 719-721): a
JavaScript object keyed by file path, modelled as an association
list. -/
abbrev CacheFile := List (String × CacheEntry)

/-- Embedding of `FileInfo` (src/utility.ts lines 728-733). -/
structure FileInfo where
  filePath : String
  fileData : List Nat
  dateUpdated : Int
  changed : Bool
deriving DecidableEq

/-- State of a persisted bucket document: it parses to a cache file, or
it exists but `JSON.parse` throws on it, or reading it fails with an
error other than `ENOENT`.  A path absent from the disk map reads as
`ENOENT`. -/
inductive DiskDoc where
  | parsable (cacheFile : CacheFile)
  | malformed
  | unreadable
deriving DecidableEq

/-- Failures propagated by the cache operations (promise rejection): a
non-`ENOENT` read failure rethrown at src/utility.ts line 819, or a
`JSON.parse` failure (also rethrown there, since a `SyntaxError` carries
no `code` equal to `ENOENT`). -/
inductive CacheErr where
  | readErr
  | parseErr
deriving DecidableEq

/-- Mutable process state: the bucket documents on disk, the in-memory
overlay `localCache` (src/utility.ts line 736), and a running count of
bucket document writes performed through `writeFilep`. -/
structure Sys where
  disk : List (String × DiskDoc)
  localCache : List (String × CacheFile)
  writes : Nat
deriving DecidableEq

/-- Equality of `Except` results is decidable componentwise (needed to
evaluate the operations at concrete inputs inside proofs). -/
instance {ε α : Type} [DecidableEq ε] [DecidableEq α] : DecidableEq (Except ε α) := fun x y =>
  match x, y with
  | .ok a, .ok b =>
    if h : a = b then .isTrue (by rw [h]) else .isFalse (fun hc => h (Except.ok.inj hc))
  | .error a, .error b =>
    if h : a = b then .isTrue (by rw [h]) else .isFalse (fun hc => h (Except.error.inj hc))
  | .ok _, .error _ => .isFalse (fun hc => Except.noConfusion hc)
  | .error _, .ok _ => .isFalse (fun hc => Except.noConfusion hc)

/-- The assignment `l[k] = v` on a JavaScript object modelled as an
association list: replace the value at an existing key, or append the
new key. -/
def assocSet (k : String) (v : α) : List (String × α) → List (String × α)
  | [] => [(k, v)]
  | (k', v') :: rest =>
    if k' == k then (k, v) :: rest else (k', v') :: assocSet k v rest

/-- Embedding of `getCacheFile` (src/utility.ts lines 803-823): return
the overlay's bucket when present; otherwise read and parse the
persisted document, inserting the parsed bucket into the overlay; a
missing document (`ENOENT`) yields an empty bucket that is not placed in
the overlay; any other failure propagates. -/
def getCacheFile (s : Sys) (filePath : String) : Except CacheErr (CacheFile × Sys) :=
  let hashPath := getHashPath filePath
  match s.localCache.lookup hashPath with
  | some localCacheFile => .ok (localCacheFile, s)
  | none =>
    match s.disk.lookup hashPath with
    | some (.parsable cacheFile) =>
      .ok (cacheFile, { s with localCache := assocSet hashPath cacheFile s.localCache })
    | some .malformed => .error .parseErr
    | some .unreadable => .error .readErr
    | none => .ok ([], s)

/-- Embedding of `setCacheFile` (src/utility.ts lines 799-801):
serialize the bucket and write its document with `writeFilep`. -/
def setCacheFile (s : Sys) (hashPath : String) (cacheFile : CacheFile) : Sys :=
  { s with
    disk := assocSet hashPath (.parsable cacheFile) s.disk
    writes := s.writes + 1 }

/-- Embedding of `getCacheEntry` (src/utility.ts lines 825-832): the
entry at the argument key, or the zero entry when absent. -/
def getCacheEntry (s : Sys) (filePath : String) : Except CacheErr (CacheEntry × Sys) :=
  match getCacheFile s filePath with
  | .error e => .error e
  | .ok (cacheFile, s₁) => .ok ((cacheFile.lookup filePath).getD ⟨0, 0⟩, s₁)

/-- Embedding of `fileInfoComparer` (src/utility.ts lines 839-841). -/
def fileInfoComparer (a b : CacheEntry) : Bool :=
  a.dateUpdated == b.dateUpdated && a.hash == b.hash

/-- The comparison at src/utility.ts line 788:
`fileInfoComparer(cacheFile[filePath] || {}, cacheEntry)`.  When the key
is absent the `|| {}` fallback compares the fresh entry against an empty
object, whose `undefined` fields never equal numbers, so the result is
`false`. -/
def storedMatches (cacheFile : CacheFile) (filePath : String) (cacheEntry : CacheEntry) : Bool :=
  match cacheFile.lookup filePath with
  | some a => fileInfoComparer a cacheEntry
  | none => false

/-- Embedding of `setCacheEntry` (src/utility.ts lines 780-797).  The
comparison at line 788 reads `fileInfoComparer(cacheFile[filePath] ||
{}, cacheEntry)`: a missing entry compares against the fresh entry via
the empty object, whose `undefined` fields never equal numbers, so the
missing case is `false`.  The in-place assignment at line 793 mutates
the bucket object; when that object is the one held by the overlay, the
overlay observes the update, and otherwise (the bucket synthesized for a
missing document) the overlay is untouched. -/
def setCacheEntry (s : Sys) (dateUpdated : Int) (filePath : String) (fileData : List Nat) :
    Except CacheErr (CacheEntry × Sys) :=
  let cacheEntry : CacheEntry := ⟨dateUpdated, getHash fileData⟩
  match getCacheFile s filePath with
  | .error e => .error e
  | .ok (cacheFile, s₁) =>
    if storedMatches cacheFile filePath cacheEntry then .ok (cacheEntry, s₁)
    else
      let cacheFile' := assocSet filePath cacheEntry cacheFile
      let hashPath := getHashPath filePath
      let s₂ := if (s₁.localCache.lookup hashPath).isSome
        then { s₁ with localCache := assocSet hashPath cacheFile' s₁.localCache }
        else s₁
      .ok (cacheEntry, setCacheFile s₂ hashPath cacheFile')

/-- Embedding of `getCached` (src/utility.ts lines 743-764).  The code
passes the derived `hashPath`, not `filePath`, as the key argument of
`getCacheEntry`. -/
def getCached (s : Sys) (filePath : String) (ctime : Int) (fileData : List Nat) :
    Except CacheErr (FileInfo × Sys) :=
  let hashPath := getHashPath filePath
  match getCacheEntry s hashPath with
  | .error e => .error e
  | .ok (cacheEntry, s₁) =>
    let hash := getHash fileData
    let dateUpdated := ctime
    let changed := hash != cacheEntry.hash || isNewer dateUpdated cacheEntry.dateUpdated
    .ok (⟨filePath, fileData, dateUpdated, changed⟩, s₁)

/-- Embedding of `updateCache` (src/utility.ts lines 770-777); the
observed `ctime` and content are passed in as for `getCached`. -/
def updateCache (s : Sys) (filePath : String) (ctime : Int) (fileData : List Nat) :
    Except CacheErr (CacheEntry × Sys) :=
  setCacheEntry s ctime filePath fileData

/-- Empty initial state: no persisted documents, empty overlay, no
writes performed. -/
def sys0 : Sys := ⟨[], [], 0⟩

/-- A representative tracked file: the spec's scenario file `a/b.txt`
under the website root. -/
def demoPath : String := "/project/website/a/b.txt"

/-- A second tracked file resolving to the same bucket as `demoPath`. -/
def otherPath : String := "/project/website/a/c.txt"

/-- State after committing `demoPath` with content `"x"` (code unit 120)
at time 1000 starting from `sys0`: the bucket document is on disk, the
overlay is still empty, one document write has happened. -/
def sysA : Sys :=
  ⟨[(getHashPath demoPath, .parsable [(demoPath, ⟨1000, 120⟩)])], [], 1⟩

/-- State `sysA` after its bucket document has additionally been read
and parsed into the overlay. -/
def sysA1 : Sys :=
  ⟨[(getHashPath demoPath, .parsable [(demoPath, ⟨1000, 120⟩)])],
   [(getHashPath demoPath, [(demoPath, ⟨1000, 120⟩)])], 1⟩

/-- State whose bucket document for `demoPath` exists but does not
parse. -/
def sysMal : Sys := ⟨[(getHashPath demoPath, .malformed)], [], 0⟩

/-- State whose bucket document for `demoPath` fails to read with an
error other than `ENOENT`. -/
def sysBad : Sys := ⟨[(getHashPath demoPath, .unreadable)], [], 0⟩

/-- State with an empty overlay whose bucket document for `demoPath`
exists on disk (holding an entry for `otherPath` only). -/
def sysC10 : Sys :=
  ⟨[(getHashPath demoPath, .parsable [(otherPath, ⟨5, 7⟩)])], [], 0⟩

/-! ## Lemmas about the association-list operations -/

theorem lookup_assocSet_self (k : String) (v : α) (l : List (String × α)) :
    (assocSet k v l).lookup k = some v := by
  induction l with
  | nil => simp [assocSet, List.lookup]
  | cons kv rest ih =>
    obtain ⟨k', v'⟩ := kv
    by_cases h : k' = k
    · subst h
      simp [assocSet, List.lookup]
    · have hb : (k' == k) = false := beq_eq_false_iff_ne.mpr h
      have hb' : (k == k') = false := beq_eq_false_iff_ne.mpr (fun e => h e.symm)
      simp [assocSet, List.lookup, hb, hb', ih]

theorem lookup_assocSet_ne (k k' : String) (v : α) (l : List (String × α))
    (h : k' ≠ k) : (assocSet k v l).lookup k' = l.lookup k' := by
  induction l with
  | nil => simp [assocSet, List.lookup, beq_eq_false_iff_ne.mpr h]
  | cons kv rest ih =>
    obtain ⟨k₀, v₀⟩ := kv
    by_cases h₀ : k₀ = k
    · subst h₀
      simp [assocSet, List.lookup, beq_eq_false_iff_ne.mpr h]
    · simp [assocSet, List.lookup, beq_eq_false_iff_ne.mpr h₀, ih]

/-! ## Range of the fingerprint -/

theorem toInt32_bounds (x : Int) : -(2 ^ 31) ≤ toInt32 x ∧ toInt32 x < 2 ^ 31 := by
  unfold toInt32
  have h₁ : (0 : Int) ≤ (x + 2 ^ 31) % 2 ^ 32 :=
    Int.emod_nonneg _ (by norm_num)
  have h₂ : (x + 2 ^ 31) % 2 ^ 32 < 2 ^ 32 :=
    Int.emod_lt_of_pos _ (by norm_num)
  constructor <;> nlinarith [h₁, h₂]

theorem foldl_hashStep_bounds (l : List Nat) (acc : Int)
    (h : -(2 ^ 31) ≤ acc ∧ acc < 2 ^ 31) :
    -(2 ^ 31) ≤ l.foldl hashStep acc ∧ l.foldl hashStep acc < 2 ^ 31 := by
  induction l generalizing acc with
  | nil => simpa using h
  | cons c rest ih =>
    simp only [List.foldl_cons]
    exact ih _ (by simpa [hashStep] using toInt32_bounds (toInt32 (acc * 32) - acc + (c : Int)))

/-! ## Structural lemmas about the bucket store -/

theorem getCacheFile_cases {s : Sys} {p : String} {cf : CacheFile} {s' : Sys}
    (h : getCacheFile s p = .ok (cf, s')) :
    (s.localCache.lookup (getHashPath p) = some cf ∧ s' = s) ∨
    (s.localCache.lookup (getHashPath p) = none ∧
      s.disk.lookup (getHashPath p) = some (.parsable cf) ∧
      s' = { s with localCache := assocSet (getHashPath p) cf s.localCache }) ∨
    (s.localCache.lookup (getHashPath p) = none ∧
      s.disk.lookup (getHashPath p) = none ∧ cf = [] ∧ s' = s) := by
  cases hl : s.localCache.lookup (getHashPath p) with
  | some localCacheFile =>
    simp only [getCacheFile, hl, Except.ok.injEq, Prod.mk.injEq] at h
    exact Or.inl ⟨h.1 ▸ rfl, h.2.symm⟩
  | none =>
    cases hd : s.disk.lookup (getHashPath p) with
    | some doc =>
      cases doc with
      | parsable cacheFile =>
        simp only [getCacheFile, hl, hd, Except.ok.injEq, Prod.mk.injEq] at h
        obtain ⟨rfl, rfl⟩ := h
        exact Or.inr (Or.inl ⟨rfl, rfl, rfl⟩)
      | malformed => simp [getCacheFile, hl, hd] at h
      | unreadable => simp [getCacheFile, hl, hd] at h
    | none =>
      simp only [getCacheFile, hl, hd, Except.ok.injEq, Prod.mk.injEq] at h
      obtain ⟨rfl, rfl⟩ := h
      exact Or.inr (Or.inr ⟨rfl, rfl, rfl, rfl⟩)

theorem getCacheFile_frame {s : Sys} {p : String} {cf : CacheFile} {s' : Sys}
    (h : getCacheFile s p = .ok (cf, s')) :
    s'.disk = s.disk ∧ s'.writes = s.writes ∧
    ∀ k v, s.localCache.lookup k = some v → s'.localCache.lookup k = some v := by
  rcases getCacheFile_cases h with ⟨_, rfl⟩ | ⟨hl, _, rfl⟩ | ⟨_, _, _, rfl⟩
  · exact ⟨rfl, rfl, fun k v hv => hv⟩
  · refine ⟨rfl, rfl, fun k v hv => ?_⟩
    by_cases hk : k = getHashPath p
    · subst hk
      exact absurd hv (by simp [hl])
    · simpa [lookup_assocSet_ne _ _ _ _ hk] using hv
  · exact ⟨rfl, rfl, fun k v hv => hv⟩

theorem getCacheFile_overlay_after {s : Sys} {p : String} {cf : CacheFile} {s' : Sys}
    (h : getCacheFile s p = .ok (cf, s')) :
    s'.localCache.lookup (getHashPath p) = some cf ∨
    (s'.localCache.lookup (getHashPath p) = none ∧
      s'.disk.lookup (getHashPath p) = none ∧ cf = []) := by
  rcases getCacheFile_cases h with ⟨hl, rfl⟩ | ⟨_, _, rfl⟩ | ⟨hl, hd, rfl, rfl⟩
  · exact Or.inl hl
  · exact Or.inl (by simpa using lookup_assocSet_self (getHashPath p) cf s.localCache)
  · exact Or.inr ⟨hl, hd, rfl⟩

theorem getCacheFile_rerun {s : Sys} {p : String} {cf : CacheFile} {s' : Sys}
    (h : getCacheFile s p = .ok (cf, s')) :
    getCacheFile s' p = .ok (cf, s') := by
  rcases getCacheFile_overlay_after h with h₁ | ⟨h₁, h₂, rfl⟩
  · simp [getCacheFile, h₁]
  · simp [getCacheFile, h₁, h₂]

theorem getCacheFile_overlay_provenance {s : Sys} {p : String} {cf : CacheFile} {s' : Sys}
    (h : getCacheFile s p = .ok (cf, s')) :
    ∀ k v, s'.localCache.lookup k = some v →
      s.localCache.lookup k = some v ∨ s.disk.lookup k = some (.parsable v) := by
  rcases getCacheFile_cases h with ⟨_, rfl⟩ | ⟨hl, hd, rfl⟩ | ⟨_, _, _, rfl⟩
  · exact fun k v hv => Or.inl hv
  · intro k v hv
    by_cases hk : k = getHashPath p
    · subst hk
      obtain rfl : cf = v := by
        simpa [lookup_assocSet_self] using hv
      exact Or.inr hd
    · exact Or.inl (by simpa [lookup_assocSet_ne _ _ _ _ hk] using hv)
  · exact fun k v hv => Or.inl hv

theorem getCacheEntry_state {s : Sys} {p : String} {e : CacheEntry} {s₁ : Sys}
    (h : getCacheEntry s p = .ok (e, s₁)) :
    ∃ cf, getCacheFile s p = .ok (cf, s₁) ∧ e = (cf.lookup p).getD ⟨0, 0⟩ := by
  cases hg : getCacheFile s p with
  | error err => simp [getCacheEntry, hg] at h
  | ok pr =>
    obtain ⟨cf, s'⟩ := pr
    simp only [getCacheEntry, hg, Except.ok.injEq, Prod.mk.injEq] at h
    obtain ⟨rfl, rfl⟩ := h
    exact ⟨cf, rfl, rfl⟩

/-! ## Lemmas about the commit operation -/

theorem fileInfoComparer_eq {a b : CacheEntry} (h : fileInfoComparer a b = true) : a = b := by
  obtain ⟨ad, ah⟩ := a
  obtain ⟨bd, bh⟩ := b
  simp only [fileInfoComparer, Bool.and_eq_true, beq_iff_eq] at h
  simp_all

theorem fileInfoComparer_self (a : CacheEntry) : fileInfoComparer a a = true := by
  simp [fileInfoComparer]

theorem storedMatches_true_iff {cf : CacheFile} {p : String} {b : CacheEntry} :
    storedMatches cf p b = true ↔ ∃ a, cf.lookup p = some a ∧ fileInfoComparer a b = true := by
  unfold storedMatches
  cases cf.lookup p <;> simp

theorem setCacheEntry_skip {s : Sys} {t : Int} {p : String} {d : List Nat}
    {cf : CacheFile} {s' : Sys}
    (hg : getCacheFile s p = .ok (cf, s'))
    (hm : storedMatches cf p ⟨t, getHash d⟩ = true) :
    setCacheEntry s t p d = .ok (⟨t, getHash d⟩, s') := by
  simp [setCacheEntry, hg, hm]

theorem setCacheEntry_stored {s : Sys} {t : Int} {p : String} {d : List Nat}
    {e : CacheEntry} {s₁ : Sys}
    (h : setCacheEntry s t p d = .ok (e, s₁)) :
    e = ⟨t, getHash d⟩ ∧
    ∃ cf₁ s₂, getCacheFile s₁ p = .ok (cf₁, s₂) ∧ cf₁.lookup p = some e := by
  cases hg : getCacheFile s p with
  | error err => simp [setCacheEntry, hg] at h
  | ok pr =>
    obtain ⟨cf, s'⟩ := pr
    cases hm : storedMatches cf p ⟨t, getHash d⟩ with
    | true =>
      simp only [setCacheEntry, hg, hm, if_true, Except.ok.injEq, Prod.mk.injEq] at h
      obtain ⟨rfl, rfl⟩ := h
      obtain ⟨a, hla, hca⟩ := storedMatches_true_iff.mp hm
      obtain rfl := fileInfoComparer_eq hca
      exact ⟨rfl, cf, s', getCacheFile_rerun hg, hla⟩
    | false =>
      simp only [setCacheEntry, hg, hm, if_false, Bool.false_eq_true,
        Except.ok.injEq, Prod.mk.injEq] at h
      obtain ⟨rfl, rfl⟩ := h
      refine ⟨rfl, ?_⟩
      cases hs : (s'.localCache.lookup (getHashPath p)).isSome with
      | true =>
        rw [if_pos rfl]
        refine ⟨assocSet p ⟨t, getHash d⟩ cf,
          setCacheFile
            { s' with localCache :=
                assocSet (getHashPath p) (assocSet p ⟨t, getHash d⟩ cf) s'.localCache }
            (getHashPath p) (assocSet p ⟨t, getHash d⟩ cf),
          ?_, lookup_assocSet_self _ _ _⟩
        simp [getCacheFile, setCacheFile, lookup_assocSet_self]
      | false =>
        rw [if_neg (by simp)]
        have hnone : s'.localCache.lookup (getHashPath p) = none := by
          cases hcc : s'.localCache.lookup (getHashPath p) with
          | none => rfl
          | some w => rw [hcc] at hs; simp at hs
        refine ⟨assocSet p ⟨t, getHash d⟩ cf,
          { disk := assocSet (getHashPath p)
              (.parsable (assocSet p ⟨t, getHash d⟩ cf)) s'.disk
            localCache := assocSet (getHashPath p) (assocSet p ⟨t, getHash d⟩ cf) s'.localCache
            writes := s'.writes + 1 },
          ?_, lookup_assocSet_self _ _ _⟩
        simp [getCacheFile, setCacheFile, hnone, lookup_assocSet_self]

/-! ## Claim theorems -/

/-- C1 (code defect, evaluated at the failing input): after committing
`demoPath` with content `"x"` (code unit 120) at time 1000, the recorded
entry for that same path is `⟨1000, 120⟩`, yet a change-detection query
observing the identical content at the same time 1000 reports
`changed = true`, while the claim's formula over the recorded entry
yields `false`.  The cause: `getCached` hands the derived `hashPath` to
`getCacheEntry`, so it consults the key `getHashPath demoPath` inside
the bucket of `getHashPath (getHashPath demoPath)` instead of the
recorded entry. -/
theorem getCached_misses_recorded_entry :
    updateCache sys0 demoPath 1000 [120] = .ok (⟨1000, 120⟩, sysA) ∧
    (getCacheEntry sysA demoPath).map Prod.fst = .ok ⟨1000, 120⟩ ∧
    (getCached sysA demoPath 1000 [120]).map (fun r => r.1.changed) = .ok true ∧
    ((getHash [120] != (CacheEntry.mk 1000 120).hash) ||
      isNewer 1000 (CacheEntry.mk 1000 120).dateUpdated) = false := by
  decide

/-- C2 counterexample: committing `demoPath` with content `"x"` at time
1000 and then observing the same content at time 1,050,000 does not
yield `changed = false`: the code reports `changed = true`. -/
theorem scenarioD_counterexample :
    updateCache sys0 demoPath 1000 [120] = .ok (⟨1000, 120⟩, sysA) ∧
    (getCached sysA demoPath 1050000 [120]).map (fun r => r.1.changed) ≠ .ok false := by
  decide

/-- C2 amended: in the same scenario the query reports `changed = true`.
The timestamp delta of 1,049,000 ms exceeds the 120,000 ms grace period
(last conjunct), so even the spec's own formula over the recorded entry
gives `true`; independently, the consulted entry is not the recorded
one. -/
theorem scenarioD_amended :
    updateCache sys0 demoPath 1000 [120] = .ok (⟨1000, 120⟩, sysA) ∧
    (getCached sysA demoPath 1050000 [120]).map (fun r => r.1.changed) = .ok true ∧
    isNewer 1050000 1000 = true := by
  decide

/-- C3: a commit (`setCacheEntry`, the operation invoked by
`updateCache`) followed immediately by `getCacheEntry` for the same
path, with no intervening bucket mutation, succeeds and returns an entry
whose `dateUpdated` and `hash` fields equal those of the committed
entry (`CacheEntry` consists of exactly these two fields). -/
theorem setCacheEntry_getCacheEntry_roundtrip :
    ∀ (s : Sys) (t : Int) (p : String) (d : List Nat) (e : CacheEntry) (s₁ : Sys),
      setCacheEntry s t p d = .ok (e, s₁) →
      e.dateUpdated = t ∧ e.hash = getHash d ∧
      ∃ s₂, getCacheEntry s₁ p = .ok (e, s₂) := by
  intro s t p d e s₁ h
  obtain ⟨rfl, cf₁, s₂, hg, hl⟩ := setCacheEntry_stored h
  exact ⟨rfl, rfl, s₂, by simp [getCacheEntry, hg, hl]⟩

/-- Witness for C3 at a concrete input: committing `demoPath` from the
empty state and reading the entry back. -/
theorem setCacheEntry_getCacheEntry_roundtrip_witness :
    setCacheEntry sys0 1000 demoPath [120] = .ok (⟨1000, 120⟩, sysA) ∧
    ((⟨1000, 120⟩ : CacheEntry).dateUpdated = 1000 ∧
      (⟨1000, 120⟩ : CacheEntry).hash = getHash [120] ∧
      ∃ s₂, getCacheEntry sysA demoPath = .ok (⟨1000, 120⟩, s₂)) :=
  ⟨rfl, setCacheEntry_getCacheEntry_roundtrip sys0 1000 demoPath [120] ⟨1000, 120⟩ sysA rfl⟩

/-- C4 (the spec's Scenario C): for any path committed with content
`"x"` at time 1000 starting from the empty state, a change-detection
query at time 1,121,000 observing content whose fingerprint equals the
stored hash reports `changed = true` (the timestamp delta exceeds the
grace period; with the code's mislocated lookup the verdict is `true` in
every branch). -/
theorem scenarioC_changed_true :
    ∀ (p : String) (d : List Nat), getHash d = getHash [120] →
      ∃ e s₁, updateCache sys0 p 1000 [120] = .ok (e, s₁) ∧
        e.hash = getHash d ∧
        (getCached s₁ p 1121000 d).map (fun r => r.1.changed) = .ok true := by
  intro p d hd
  have h120 : getHash [120] = 120 := rfl
  rw [h120] at hd
  refine ⟨⟨1000, 120⟩,
    ⟨[(getHashPath p, .parsable [(p, ⟨1000, 120⟩)])], [], 1⟩, rfl, hd.symm, ?_⟩
  by_cases heq : getHashPath (getHashPath p) = getHashPath p
  · by_cases hpp : getHashPath p = p
    · simp [getCached, getCacheEntry, getCacheFile, List.lookup, heq, hpp, hd,
        isNewer, gracePeriodMilliseconds, Except.map]
    · simp [getCached, getCacheEntry, getCacheFile, List.lookup, heq,
        beq_eq_false_iff_ne.mpr hpp, hd, Except.map]
  · simp [getCached, getCacheEntry, getCacheFile, List.lookup,
      beq_eq_false_iff_ne.mpr heq, hd, Except.map]

/-- Witness for C4 at a concrete input: `demoPath` with the original
content `"x"` itself. -/
theorem scenarioC_changed_true_witness :
    getHash [120] = getHash [120] ∧
    ∃ e s₁, updateCache sys0 demoPath 1000 [120] = .ok (e, s₁) ∧
      e.hash = getHash [120] ∧
      (getCached s₁ demoPath 1121000 [120]).map (fun r => r.1.changed) = .ok true :=
  ⟨rfl, scenarioC_changed_true demoPath [120] rfl⟩

/-- C5: when the stored entry field-equals the freshly computed entry
(the code's own comparison `storedMatches` succeeds), a commit returns
the fresh entry, leaves the disk untouched, performs no document write
and preserves every overlay entry; consequently a second commit of the
same unchanged content with the same timestamp returns a field-identical
entry and performs no second document write. -/
theorem setCacheEntry_skip_and_idempotent :
    (∀ (s : Sys) (t : Int) (p : String) (d : List Nat) (cf : CacheFile) (s' : Sys),
      getCacheFile s p = .ok (cf, s') →
      storedMatches cf p ⟨t, getHash d⟩ = true →
      setCacheEntry s t p d = .ok (⟨t, getHash d⟩, s') ∧
      s'.disk = s.disk ∧ s'.writes = s.writes ∧
      ∀ k v, s.localCache.lookup k = some v → s'.localCache.lookup k = some v) ∧
    (∀ (s : Sys) (t : Int) (p : String) (d : List Nat) (e : CacheEntry) (s₁ : Sys),
      setCacheEntry s t p d = .ok (e, s₁) →
      ∃ s₂, setCacheEntry s₁ t p d = .ok (e, s₂) ∧
        s₂.disk = s₁.disk ∧ s₂.writes = s₁.writes) := by
  constructor
  · intro s t p d cf s' hg hm
    obtain ⟨hdisk, hw, hov⟩ := getCacheFile_frame hg
    exact ⟨setCacheEntry_skip hg hm, hdisk, hw, hov⟩
  · intro s t p d e s₁ h
    obtain ⟨rfl, cf₁, s₂, hg, hl⟩ := setCacheEntry_stored h
    have hm : storedMatches cf₁ p ⟨t, getHash d⟩ = true := by
      simp [storedMatches, hl, fileInfoComparer_self]
    obtain ⟨hdisk, hw, _⟩ := getCacheFile_frame hg
    exact ⟨s₂, setCacheEntry_skip hg hm, hdisk, hw⟩

/-- Witness for C5: the skip case at a state whose overlay already holds
the matching entry, and the double-commit case starting from the empty
state. -/
theorem setCacheEntry_skip_and_idempotent_witness :
    (setCacheEntry sysA1 1000 demoPath [120] = .ok (⟨1000, 120⟩, sysA1) ∧
      sysA1.disk = sysA1.disk ∧ sysA1.writes = sysA1.writes ∧
      ∀ k v, sysA1.localCache.lookup k = some v → sysA1.localCache.lookup k = some v) ∧
    (∃ s₂, setCacheEntry sysA 1000 demoPath [120] = .ok (⟨1000, 120⟩, s₂) ∧
      s₂.disk = sysA.disk ∧ s₂.writes = sysA.writes) :=
  ⟨setCacheEntry_skip_and_idempotent.1 sysA1 1000 demoPath [120]
      [(demoPath, ⟨1000, 120⟩)] sysA1 (by decide) (by decide),
    setCacheEntry_skip_and_idempotent.2 sys0 1000 demoPath [120] ⟨1000, 120⟩ sysA rfl⟩

/-- C6: with the bucket not yet in the overlay, a load whose document is
missing (`ENOENT`) returns the empty bucket and the unchanged state
without failing, while a document that exists but fails to parse, or
whose read fails with any other error, makes the load fail with a
propagated error. -/
theorem getCacheFile_missing_vs_failure :
    ∀ (s : Sys) (p : String),
      s.localCache.lookup (getHashPath p) = none →
      (s.disk.lookup (getHashPath p) = none → getCacheFile s p = .ok ([], s)) ∧
      (s.disk.lookup (getHashPath p) = some .malformed →
        getCacheFile s p = .error .parseErr) ∧
      (s.disk.lookup (getHashPath p) = some .unreadable →
        getCacheFile s p = .error .readErr) := by
  intro s p hl
  refine ⟨fun hd => ?_, fun hd => ?_, fun hd => ?_⟩ <;> simp [getCacheFile, hl, hd]

/-- Witness for C6: the three outcomes at concrete states. -/
theorem getCacheFile_missing_vs_failure_witness :
    getCacheFile sys0 demoPath = .ok ([], sys0) ∧
    getCacheFile sysMal demoPath = .error .parseErr ∧
    getCacheFile sysBad demoPath = .error .readErr :=
  ⟨(getCacheFile_missing_vs_failure sys0 demoPath rfl).1 rfl,
    (getCacheFile_missing_vs_failure sysMal demoPath rfl).2.1 (by
      simp [sysMal, List.lookup]),
    (getCacheFile_missing_vs_failure sysBad demoPath rfl).2.2 (by
      simp [sysBad, List.lookup])⟩

/-- C7: when the loaded bucket holds no entry at the queried key,
`getCacheEntry` succeeds and returns the zero-valued entry
`⟨0, 0⟩`; absence is not an error. -/
theorem getCacheEntry_absent_returns_zero :
    ∀ (s : Sys) (p : String) (cf : CacheFile) (s₁ : Sys),
      getCacheFile s p = .ok (cf, s₁) → cf.lookup p = none →
      getCacheEntry s p = .ok (⟨0, 0⟩, s₁) := by
  intro s p cf s₁ hg hl
  simp [getCacheEntry, hg, hl]

/-- Witness for C7: reading a never-observed path from the empty
state. -/
theorem getCacheEntry_absent_returns_zero_witness :
    getCacheFile sys0 demoPath = .ok ([], sys0) ∧
    getCacheEntry sys0 demoPath = .ok (⟨0, 0⟩, sys0) :=
  ⟨rfl, getCacheEntry_absent_returns_zero sys0 demoPath [] sys0 rfl rfl⟩

/-- C8: a successful change-detection query returns a `FileInfo`
carrying the queried path, the observed content and timestamp (and its
`changed` verdict), leaves the disk exactly as it was, performs no
document write, and preserves every overlay entry unchanged. -/
theorem getCached_frame :
    ∀ (s : Sys) (p : String) (t : Int) (d : List Nat) (fi : FileInfo) (s₁ : Sys),
      getCached s p t d = .ok (fi, s₁) →
      fi.filePath = p ∧ fi.fileData = d ∧ fi.dateUpdated = t ∧
      s₁.disk = s.disk ∧ s₁.writes = s.writes ∧
      ∀ k v, s.localCache.lookup k = some v → s₁.localCache.lookup k = some v := by
  intro s p t d fi s₁ h
  cases he : getCacheEntry s (getHashPath p) with
  | error err => simp [getCached, he] at h
  | ok pr =>
    obtain ⟨ce, s'⟩ := pr
    simp only [getCached, he, Except.ok.injEq, Prod.mk.injEq] at h
    obtain ⟨rfl, rfl⟩ := h
    obtain ⟨cf, hg, _⟩ := getCacheEntry_state he
    obtain ⟨hdisk, hw, hov⟩ := getCacheFile_frame hg
    exact ⟨rfl, rfl, rfl, hdisk, hw, hov⟩

/-- Witness for C8: a query from the empty state. -/
theorem getCached_frame_witness :
    getCached sys0 demoPath 5 [120] = .ok (⟨demoPath, [120], 5, true⟩, sys0) ∧
    ((⟨demoPath, [120], 5, true⟩ : FileInfo).filePath = demoPath ∧
      (⟨demoPath, [120], 5, true⟩ : FileInfo).fileData = [120] ∧
      (⟨demoPath, [120], 5, true⟩ : FileInfo).dateUpdated = 5 ∧
      sys0.disk = sys0.disk ∧ sys0.writes = sys0.writes ∧
      ∀ k v, sys0.localCache.lookup k = some v → sys0.localCache.lookup k = some v) :=
  ⟨rfl, getCached_frame sys0 demoPath 5 [120] ⟨demoPath, [120], 5, true⟩ sys0 rfl⟩

/-- C9: the fingerprint is a deterministic function with
`getHash [] = 0` (the empty string maps to zero), and its value always
lies in the signed 32-bit range. -/
theorem getHash_deterministic :
    getHash [] = 0 ∧
    ∀ s : List Nat, getHash s = getHash s ∧
      -(2 ^ 31) ≤ getHash s ∧ getHash s < 2 ^ 31 := by
  refine ⟨rfl, fun s => ⟨rfl, ?_⟩⟩
  unfold getHash
  by_cases hs : s = []
  · rw [if_pos hs]
    norm_num
  · rw [if_neg hs]
    exact foldl_hashStep_bounds s 0 (by norm_num)

/-- C10 counterexample: starting from a state whose overlay is empty but
whose bucket document exists on disk, a commit does insert a bucket into
the overlay (through the read-and-parse performed by its internal
load). -/
theorem commit_inserts_overlay_counterexample :
    sysC10.localCache = [] ∧
    (setCacheEntry sysC10 9 demoPath [120]).map
      (fun r => (r.2.localCache.lookup (getHashPath demoPath)).isSome) = .ok true := by
  decide

/-- C10 amended: every overlay entry after a load comes from the prior
overlay or from a parsable persisted document; a commit can add an
overlay bucket only when a parsable document for it already existed on
disk (the read-and-parse of its internal load); and for a bucket whose
document is missing, a commit leaves the overlay exactly unchanged even
though it writes the document. -/
theorem overlay_provenance :
    (∀ (s : Sys) (p : String) (cf : CacheFile) (s' : Sys),
      getCacheFile s p = .ok (cf, s') →
      ∀ k v, s'.localCache.lookup k = some v →
        s.localCache.lookup k = some v ∨ s.disk.lookup k = some (.parsable v)) ∧
    (∀ (s : Sys) (t : Int) (p : String) (d : List Nat) (e : CacheEntry) (s₁ : Sys),
      setCacheEntry s t p d = .ok (e, s₁) →
      ∀ k v, s₁.localCache.lookup k = some v →
        s.localCache.lookup k ≠ none ∨
        ∃ cf, s.disk.lookup k = some (.parsable cf)) ∧
    (∀ (s : Sys) (t : Int) (p : String) (d : List Nat) (e : CacheEntry) (s₁ : Sys),
      s.localCache.lookup (getHashPath p) = none →
      s.disk.lookup (getHashPath p) = none →
      setCacheEntry s t p d = .ok (e, s₁) →
      s₁.localCache = s.localCache) := by
  refine ⟨fun s p cf s' hg => getCacheFile_overlay_provenance hg, ?_, ?_⟩
  · intro s t p d e s₁ h k v hv
    cases hg : getCacheFile s p with
    | error err => simp [setCacheEntry, hg] at h
    | ok pr =>
      obtain ⟨cf, s'⟩ := pr
      cases hm : storedMatches cf p ⟨t, getHash d⟩ with
      | true =>
        simp only [setCacheEntry, hg, hm, if_true, Except.ok.injEq, Prod.mk.injEq] at h
        obtain ⟨rfl, rfl⟩ := h
        rcases getCacheFile_overlay_provenance hg k v hv with h₁ | h₁
        · exact Or.inl (by rw [h₁]; simp)
        · exact Or.inr ⟨v, h₁⟩
      | false =>
        simp only [setCacheEntry, hg, hm, Bool.false_eq_true, if_false,
          Except.ok.injEq, Prod.mk.injEq] at h
        obtain ⟨rfl, rfl⟩ := h
        rw [setCacheFile] at hv
        cases hs : (s'.localCache.lookup (getHashPath p)).isSome with
        | true =>
          rw [hs, if_pos rfl] at hv
          simp only at hv
          obtain ⟨w, hw⟩ : ∃ w, s'.localCache.lookup (getHashPath p) = some w := by
            cases hcc : s'.localCache.lookup (getHashPath p) with
            | none => rw [hcc] at hs; simp at hs
            | some w => exact ⟨w, rfl⟩
          by_cases hk : k = getHashPath p
          · subst hk
            rcases getCacheFile_overlay_provenance hg (getHashPath p) w hw with h₁ | h₁
            · exact Or.inl (by rw [h₁]; simp)
            · exact Or.inr ⟨w, h₁⟩
          · rw [lookup_assocSet_ne _ _ _ _ hk] at hv
            rcases getCacheFile_overlay_provenance hg k v hv with h₁ | h₁
            · exact Or.inl (by rw [h₁]; simp)
            · exact Or.inr ⟨v, h₁⟩
        | false =>
          rw [hs, if_neg (by simp)] at hv
          simp only at hv
          rcases getCacheFile_overlay_provenance hg k v hv with h₁ | h₁
          · exact Or.inl (by rw [h₁]; simp)
          · exact Or.inr ⟨v, h₁⟩
  · intro s t p d e s₁ hl hdk h
    have hgf : getCacheFile s p = .ok ([], s) := by simp [getCacheFile, hl, hdk]
    have hsm : storedMatches ([] : CacheFile) p ⟨t, getHash d⟩ = false := rfl
    simp only [setCacheEntry, hgf, hsm, Bool.false_eq_true, if_false, hl,
      Option.isSome_none, Except.ok.injEq, Prod.mk.injEq] at h
    obtain ⟨rfl, rfl⟩ := h
    rfl

/-- Witness for C10's amended statement: the provenance disjunction at
the state after the first commit, and the overlay-unchanged consequence
of that first commit itself. -/
theorem overlay_provenance_witness :
    (sysA.localCache.lookup (getHashPath demoPath) = some [(demoPath, ⟨1000, 120⟩)] ∨
      sysA.disk.lookup (getHashPath demoPath) = some (.parsable [(demoPath, ⟨1000, 120⟩)])) ∧
    sysA.localCache = sys0.localCache :=
  ⟨overlay_provenance.1 sysA demoPath [(demoPath, ⟨1000, 120⟩)] sysA1 (by decide)
      (getHashPath demoPath) [(demoPath, ⟨1000, 120⟩)] (by decide),
    overlay_provenance.2.2 sys0 1000 demoPath [120] ⟨1000, 120⟩ sysA rfl rfl rfl⟩

end FsHash
